import Mathlib

/-!
Verification development for the path-loader repository: a utility exposing a
single asynchronous load operation that resolves a filesystem path, a file URL,
or an http(s) URL into its textual content.  The core library (the dispatcher
in index.js and the two loader backends under lib/loaders) is not present in
the source tree; the model below is built from the specification, with the
completion-callback convention of the processContent hook taken from the
repository test suite (test/test-loaders-node.js), which exercises it directly.
-/

namespace PathLoader

/-- Character-level test that the string pre occurs at the start of s. -/
def beginsWith (s pre : String) : Bool :=
  pre.data.isPrefixOf s.data

/-- Drops the first n characters of a string. -/
def dropChars (s : String) (n : Nat) : String :=
  ⟨s.data.drop n⟩

/-- Lowercases every character of a string (for case-insensitive scheme matching). -/
def lowerAscii (s : String) : String :=
  ⟨s.data.map Char.toLower⟩

/-- Modelled from the spec: the mutable outgoing request object handed to the
HTTP client (method from options, default GET) and to the prepareRequest hook,
which may set authentication credentials on it.  (The network loader itself is
missing from the source tree.) -/
structure HttpRequest where
  method : String
  url : String
  auth : Option (String × String)
  deriving DecidableEq

/-- Modelled from the spec: the raw HTTP response, with a numeric status and
the body interpreted as text. -/
structure HttpResponse where
  status : Nat
  text : String
  deriving DecidableEq

/-- Modelled from the spec: a LoadError carries a human-readable message and,
for network failures, the HTTP status code. -/
structure LoadErr where
  message : String
  status : Option Nat
  deriving DecidableEq

/-- Observable behaviour of one invocation of a processContent hook on a
response: it either invokes its completion callback with a first positional
argument (and possibly a second), or throws synchronously, or returns without
ever invoking the completion callback.  The last case is the behaviour the
spec leaves as an open question (a hook that forgets to call back). -/
inductive PCOutcome where
  | pcCall (first : String) (second : Option String)
  | pcThrow (msg : String)
  | pcSilent
  deriving DecidableEq

/-- Modelled from the spec: the recognized LoadOptions.  method is the HTTP
verb (default GET); prepareRequest is invoked with the outgoing request and
either returns the mutated request or throws (modelled as Except); and
processContent is invoked with the raw response, its observable action given
by PCOutcome.  Unrecognized options are ignored and not modelled. -/
structure LoadOptions where
  method : Option String := none
  prepareRequest : Option (HttpRequest → Except String HttpRequest) := none
  processContent : Option (HttpResponse → PCOutcome) := none

/-- Outcome of one load invocation: some (Except.ok text) when the promise
resolves, some (Except.error e) when it rejects, and none when the promise
never settles (possible only when a processContent hook never invokes its
completion callback). -/
abbrev LoadOutcome := Option (Except LoadErr String)

/-- Modelled from the spec: the environment collaborators of a capable
(server-like) host: a filesystem keyed by resolved absolute path, the working
directory of the invoking context, and the HTTP transport as a black-box
function from requests to responses. -/
structure Env where
  fs : String → Option String
  cwd : String
  server : HttpRequest → HttpResponse

/-- Modelled from the spec: the path classifier routes an input matching
http:// or https:// (case-insensitive scheme) to the network loader; every
other input goes to the filesystem loader. -/
def isNetworkUrl (s : String) : Bool :=
  beginsWith (lowerAscii s) "http://" || beginsWith (lowerAscii s) "https://"

/-- Modelled from the spec: an input matching file:// is stripped to a
filesystem path before being handed to the filesystem loader. -/
def stripFileScheme (s : String) : String :=
  if beginsWith s "file://" then dropChars s 7 else s

/-- Modelled from the spec: relative paths are resolved against the working
directory of the invoking context; absolute paths are used as given.  A
leading ./ segment on a relative path is elided by the join. -/
def resolvePath (cwd p : String) : String :=
  if beginsWith p "/" then p
  else if beginsWith p "./" then cwd ++ "/" ++ dropChars p 2
  else cwd ++ "/" ++ p

/-- Modelled from the spec: the filesystem loader resolves the location
against the working directory, reads the file as text, and on a missing file
fails with a message embedding the POSIX error code and the resolved absolute
path (the node format of that composite message, without quote marks). -/
def fileLoad (env : Env) (location : String) : LoadOutcome :=
  let abspath := resolvePath env.cwd (stripFileScheme location)
  match env.fs abspath with
  | some content => some (Except.ok content)
  | none =>
      some (Except.error
        ⟨"ENOENT: no such file or directory, open " ++ abspath, none⟩)

/-- Success statuses of the underlying HTTP client: the 2xx range. -/
def isSuccessStatus (s : Nat) : Bool :=
  200 ≤ s && s < 300

/-- Modelled from the spec: the outgoing request built by the network loader,
with the method from options (default GET) and no credentials. -/
def mkRequest (url : String) (opts : LoadOptions) : HttpRequest :=
  { method := opts.method.getD "GET", url := url, auth := none }

/-- Decidable equality of Except values, used to evaluate load outcomes on
concrete inputs. -/
instance instDecEqExcept {ε : Type} {α : Type} [DecidableEq ε] [DecidableEq α] :
    DecidableEq (Except ε α) := fun a b =>
  match a, b with
  | Except.error x, Except.error y =>
      if h : x = y then isTrue (by rw [h])
      else isFalse (fun hc => h (by cases hc; rfl))
  | Except.ok x, Except.ok y =>
      if h : x = y then isTrue (by rw [h])
      else isFalse (fun hc => h (by cases hc; rfl))
  | Except.error _, Except.ok _ => isFalse (fun hc => Except.noConfusion hc)
  | Except.ok _, Except.error _ => isFalse (fun hc => Except.noConfusion hc)

/-- Result of the network loader: the promise outcome together with whether a
request was actually sent (false exactly when prepareRequest threw). -/
structure NetResult where
  outcome : LoadOutcome
  requestSent : Bool
  deriving DecidableEq

/-- Modelled from the spec and the repository tests: the network loader builds
the request, lets prepareRequest mutate it (a throw there rejects the load and
no request is sent), sends it, rejects with the status on a non-2xx response,
and on success either resolves with the body text or defers to processContent.
The tests fix the completion-callback convention: the first argument the hook
passes to its completion callback is consumed as the processed content, and
the promise resolves with it; a synchronous throw in the hook rejects the
load; a hook that never calls back leaves the promise pending. -/
def httpLoad (server : HttpRequest → HttpResponse) (url : String)
    (opts : LoadOptions) : NetResult :=
  let req := mkRequest url opts
  let prepared : Except String HttpRequest :=
    match opts.prepareRequest with
    | none => Except.ok req
    | some hook => hook req
  match prepared with
  | Except.error msg => ⟨some (Except.error ⟨msg, none⟩), false⟩
  | Except.ok req2 =>
      let res := server req2
      if isSuccessStatus res.status then
        match opts.processContent with
        | none => ⟨some (Except.ok res.text), true⟩
        | some hook =>
            match hook res with
            | PCOutcome.pcCall first _ => ⟨some (Except.ok first), true⟩
            | PCOutcome.pcThrow msg => ⟨some (Except.error ⟨msg, none⟩), true⟩
            | PCOutcome.pcSilent => ⟨none, true⟩
      else
        ⟨some (Except.error
          ⟨"Request failed with status code " ++ toString res.status,
           some res.status⟩), true⟩

/-- Modelled from the words of the spec alone, for comparison with httpLoad:
a network loader whose processContent completion callback is error-first, the
pair (error, content): a non-empty (truthy) first argument is taken as the
error and rejects the load, an empty first argument resolves with the second
argument.  Everything else is as in httpLoad. -/
def httpLoadErrorFirst (server : HttpRequest → HttpResponse) (url : String)
    (opts : LoadOptions) : NetResult :=
  let req := mkRequest url opts
  let prepared : Except String HttpRequest :=
    match opts.prepareRequest with
    | none => Except.ok req
    | some hook => hook req
  match prepared with
  | Except.error msg => ⟨some (Except.error ⟨msg, none⟩), false⟩
  | Except.ok req2 =>
      let res := server req2
      if isSuccessStatus res.status then
        match opts.processContent with
        | none => ⟨some (Except.ok res.text), true⟩
        | some hook =>
            match hook res with
            | PCOutcome.pcCall first second =>
                if first = "" then ⟨some (Except.ok (second.getD "")), true⟩
                else ⟨some (Except.error ⟨first, none⟩), true⟩
            | PCOutcome.pcThrow msg => ⟨some (Except.error ⟨msg, none⟩), true⟩
            | PCOutcome.pcSilent => ⟨none, true⟩
      else
        ⟨some (Except.error
          ⟨"Request failed with status code " ++ toString res.status,
           some res.status⟩), true⟩

/-- Modelled from the spec: the promise-returning core of the dispatcher:
classify the target, delegate to the network or filesystem loader. -/
def loadCore (env : Env) (target : String) (opts : LoadOptions) : LoadOutcome :=
  if isNetworkUrl target then (httpLoad env.server target opts).outcome
  else fileLoad env target

/-- Shape of the second argument of the dynamic-arity entry point: an options
bag, a callback function, or nothing. -/
inductive Arg2 where
  | withOptions (o : LoadOptions)
  | withCallback
  | noSecond

/-- Modelled from the spec: when the second argument is a function it is
treated as the callback and options default to empty. -/
def optionsOf : Arg2 → LoadOptions
  | Arg2.withOptions o => o
  | _ => {}

/-- Whether a callback was supplied: either as the second argument or as the
third (the second-argument function takes precedence as the callback). -/
def callbackSupplied : Arg2 → Bool → Bool
  | Arg2.withCallback, _ => true
  | _, hasDone => hasDone

/-- One observed invocation of the supplied callback, as the pair of its
error-first arguments (error, result). -/
abbrev CallbackCall := Option LoadErr × Option String

/-- Modelled from the spec: the callback adapter wired onto the settled
promise invokes the callback once with (error, result) in error-first
convention; a promise that never settles never invokes it. -/
def callbackCalls (supplied : Bool) (outcome : LoadOutcome) :
    List CallbackCall :=
  if supplied then
    match outcome with
    | some (Except.ok s) => [(none, some s)]
    | some (Except.error e) => [(some e, none)]
    | none => []
  else []

/-- Modelled from the spec: the public entry point.  It returns the promise
outcome together with the list of invocations of the supplied callback. -/
def load (env : Env) (target : String) (arg2 : Arg2) (hasDone : Bool) :
    LoadOutcome × List CallbackCall :=
  let outcome := loadCore env target (optionsOf arg2)
  (outcome, callbackCalls (callbackSupplied arg2 hasDone) outcome)

/-! ### Helper lemmas about the string-level classifier operations -/

theorem beginsWith_append_self (p s : String) : beginsWith (p ++ s) p = true := by
  simp [beginsWith, String.data_append]

theorem beginsWith_false_of_head_ne (s p : String) (c d : Char)
    (l m : List Char) (hs : s.data = c :: l) (hp : p.data = d :: m)
    (h : d ≠ c) : beginsWith s p = false := by
  simp [beginsWith, hs, hp, List.isPrefixOf_cons₂, beq_false_of_ne h]

theorem isNetworkUrl_false_of_head (s : String) (c : Char) (l : List Char)
    (hs : s.data = c :: l) (h : Char.toLower c ≠ 'h') :
    isNetworkUrl s = false := by
  have hl : (lowerAscii s).data = Char.toLower c :: l.map Char.toLower := by
    simp [lowerAscii, hs]
  have h1 : beginsWith (lowerAscii s) "http://" = false :=
    beginsWith_false_of_head_ne _ _ _ 'h' _ "ttp://".data hl rfl
      (fun hc => h hc.symm)
  have h2 : beginsWith (lowerAscii s) "https://" = false :=
    beginsWith_false_of_head_ne _ _ _ 'h' _ "ttps://".data hl rfl
      (fun hc => h hc.symm)
  simp [isNetworkUrl, h1, h2]

theorem beginsWith_slash_of_head (s : String) (l : List Char)
    (hs : s.data = '/' :: l) : beginsWith s "/" = true := by
  simp [beginsWith, hs, List.isPrefixOf_cons₂]

theorem stripFileScheme_append (s : String) :
    stripFileScheme ("file://" ++ s) = s := by
  simp only [stripFileScheme, beginsWith_append_self, if_pos]
  show String.mk (("file://" ++ s).data.drop 7) = s
  rw [String.data_append]
  rw [List.drop_left' (by decide : "file://".data.length = 7)]

theorem stripFileScheme_of_not_file (s : String)
    (h : beginsWith s "file://" = false) : stripFileScheme s = s := by
  simp [stripFileScheme, h]

theorem resolvePath_absolute (cwd s : String) (l : List Char)
    (hs : s.data = '/' :: l) : resolvePath cwd s = s := by
  simp [resolvePath, beginsWith_slash_of_head s l hs]

/-! ### Concrete test fixtures (mirroring test/test-loaders-node.js) -/

/-- Content of test/browser/project.json, as raw text. -/
def projectJsonText : String := "\x7b\"name\":\"x\"\x7d"

/-- Concrete capable environment: one file on disk under the working directory
and a server like the helper in the test suite, serving project.json publicly
and a secured copy behind Basic auth. -/
def envC : Env where
  fs := fun p =>
    if p = "/home/user/test/browser/project.json" then some projectJsonText
    else none
  cwd := "/home/user"
  server := fun req =>
    if req.url = "http://localhost:55555/project.json" then
      ⟨200, projectJsonText⟩
    else if req.url = "http://localhost:55555/secure/project.json" then
      if req.auth = some ("whitlockjc", "path-loader") then
        ⟨200, projectJsonText⟩
      else ⟨401, "unauthorized"⟩
    else ⟨404, "not found"⟩

/-- A processContent hook that never invokes its completion callback. -/
def silentHook : HttpResponse → PCOutcome := fun _ => PCOutcome.pcSilent

/-- Options carrying only the silent processContent hook. -/
def optsSilent : LoadOptions := { processContent := some silentHook }







/-! ### Further helper lemmas -/

theorem dropChars_two_append (s : String) : dropChars ("./" ++ s) 2 = s := by
  show String.mk (("./" ++ s).data.drop 2) = s
  rw [String.data_append]
  rw [List.drop_left' (by decide : "./".data.length = 2)]

theorem loadCore_http_failure (env : Env) (url : String) (s : Nat)
    (hnet : isNetworkUrl url = true)
    (hstatus : (env.server (mkRequest url {})).status = s)
    (hfail : isSuccessStatus s = false) :
    loadCore env url {} =
      some (Except.error
        ⟨"Request failed with status code " ++ toString s, some s⟩) := by
  simp [loadCore, hnet, httpLoad, hstatus, hfail]

/-! ### Claim theorems -/

/-- C9: for every loaded target, filesystem or network, load resolves with
the raw textual content unmodified, with no implicit JSON (or other)
parsing: a filesystem target resolves with exactly the stored text of the
file, and a network target (with no processContent hook supplied) resolves
with exactly the body text of the response; parsing is the responsibility of
the caller. -/
theorem load_resolves_raw_text (env : Env) (target : String) :
    (∀ c, isNetworkUrl target = false →
      env.fs (resolvePath env.cwd (stripFileScheme target)) = some c →
      loadCore env target {} = some (Except.ok c)) ∧
    (isNetworkUrl target = true →
      isSuccessStatus (env.server (mkRequest target {})).status = true →
      loadCore env target {} =
        some (Except.ok (env.server (mkRequest target {})).text)) := by
  constructor
  · intro c hnet hfound
    simp [loadCore, hnet, fileLoad, hfound]
  · intro hnet hs
    simp [loadCore, hnet, httpLoad, hs]

/-- Witness for C9: the file ./test/browser/project.json containing the raw
JSON text resolves with exactly that string, and the same document served
over HTTP resolves with exactly the response body. -/
theorem load_resolves_raw_text_witness :
    loadCore envC "./test/browser/project.json" {} =
      some (Except.ok projectJsonText) ∧
    loadCore envC "http://localhost:55555/project.json" {} =
      some (Except.ok
        (envC.server
          (mkRequest "http://localhost:55555/project.json" {})).text) :=
  ⟨(load_resolves_raw_text envC "./test/browser/project.json").1
      projectJsonText (by decide) (by decide),
   (load_resolves_raw_text envC "http://localhost:55555/project.json").2
      (by decide) (by decide)⟩

/-- C4: loading a non-existent filesystem path fails with an error whose
message contains both the not-found indicator ENOENT and the resolved
absolute path of the target. -/
theorem missing_file_error_message (env : Env) (target : String)
    (hnet : isNetworkUrl target = false)
    (hmiss : env.fs (resolvePath env.cwd (stripFileScheme target)) = none) :
    ∃ e, loadCore env target {} = some (Except.error e) ∧
      "ENOENT".data <:+: e.message.data ∧
      (resolvePath env.cwd (stripFileScheme target)).data <:+: e.message.data := by
  refine ⟨⟨"ENOENT: no such file or directory, open " ++
      resolvePath env.cwd (stripFileScheme target), none⟩, ?_, ?_, ?_⟩
  · simp [loadCore, hnet, fileLoad, hmiss]
  · refine ⟨[], ": no such file or directory, open ".data ++
      (resolvePath env.cwd (stripFileScheme target)).data, ?_⟩
    rw [String.data_append, List.nil_append, ← List.append_assoc]
    congr 1
  · refine ⟨"ENOENT: no such file or directory, open ".data, [], ?_⟩
    rw [String.data_append, List.append_nil]

/-- Witness for C4: the missing file ./test/browser/missing.json. -/
theorem missing_file_error_message_witness :
    ∃ e, loadCore envC "./test/browser/missing.json" {} =
        some (Except.error e) ∧
      "ENOENT".data <:+: e.message.data ∧
      (resolvePath envC.cwd
        (stripFileScheme "./test/browser/missing.json")).data <:+:
        e.message.data :=
  missing_file_error_message envC "./test/browser/missing.json"
    (by decide) (by decide)

/-- C5: a non-success HTTP status rejects the load with an error carrying
that numeric status code. -/
theorem http_error_status (env : Env) (url : String) (s : Nat)
    (hnet : isNetworkUrl url = true)
    (hstatus : (env.server (mkRequest url {})).status = s)
    (hfail : isSuccessStatus s = false) :
    ∃ e, loadCore env url {} = some (Except.error e) ∧ e.status = some s :=
  ⟨⟨"Request failed with status code " ++ toString s, some s⟩,
    loadCore_http_failure env url s hnet hstatus hfail, rfl⟩

/-- Witness for C5: the URL returning HTTP 404 rejects with status 404. -/
theorem http_error_status_witness :
    ∃ e, loadCore envC "http://localhost:55555/missing.json" {} =
        some (Except.error e) ∧ e.status = some 404 :=
  http_error_status envC "http://localhost:55555/missing.json" 404
    (by decide) (by decide) (by decide)

/-- C2: an absolute path, the same path relative to the working directory
(with or without a leading dot), and the file URL form of the absolute path
all resolve with identical content; the file URL is stripped to a filesystem
path and handled by the filesystem loader. -/
theorem equivalent_path_forms_same_content (env : Env) (p c : String)
    (t : List Char) (hcwd : env.cwd.data = '/' :: t)
    (hrel : beginsWith p "/" = false)
    (hnodot : beginsWith p "./" = false)
    (hnet : isNetworkUrl p = false)
    (hfile : beginsWith p "file://" = false)
    (hc : env.fs (resolvePath env.cwd p) = some c) :
    loadCore env (resolvePath env.cwd p) {} = some (Except.ok c) ∧
    loadCore env p {} = some (Except.ok c) ∧
    loadCore env ("./" ++ p) {} = some (Except.ok c) ∧
    loadCore env ("file://" ++ resolvePath env.cwd p) {} =
      some (Except.ok c) := by
  have habs : resolvePath env.cwd p = env.cwd ++ "/" ++ p := by
    simp [resolvePath, hrel, hnodot]
  have habsdata : (env.cwd ++ "/" ++ p).data = '/' :: (t ++ '/' :: p.data) := by
    rw [String.data_append, String.data_append, hcwd]
    simp [List.append_assoc]
  have habsnet : isNetworkUrl (env.cwd ++ "/" ++ p) = false :=
    isNetworkUrl_false_of_head _ '/' _ habsdata (by decide)
  have habsfile : beginsWith (env.cwd ++ "/" ++ p) "file://" = false :=
    beginsWith_false_of_head_ne _ "file://" '/' 'f' _ "ile://".data habsdata
      rfl (by decide)
  have habsres : resolvePath env.cwd (env.cwd ++ "/" ++ p) =
      env.cwd ++ "/" ++ p :=
    resolvePath_absolute _ _ _ habsdata
  have hcabs : env.fs (env.cwd ++ "/" ++ p) = some c := by
    rw [← habs]; exact hc
  refine ⟨?_, ?_, ?_, ?_⟩
  · rw [habs]
    simp [loadCore, habsnet, fileLoad, stripFileScheme_of_not_file _ habsfile,
      habsres, hcabs]
  · simp [loadCore, hnet, fileLoad, stripFileScheme_of_not_file p hfile, hc]
  · have hdotdata : ("./" ++ p).data = '.' :: '/' :: p.data := by
      rw [String.data_append]; rfl
    have hdnet : isNetworkUrl ("./" ++ p) = false :=
      isNetworkUrl_false_of_head _ '.' _ hdotdata (by decide)
    have hdfile : beginsWith ("./" ++ p) "file://" = false :=
      beginsWith_false_of_head_ne _ "file://" '.' 'f' _ "ile://".data hdotdata
        rfl (by decide)
    have hdslash : beginsWith ("./" ++ p) "/" = false :=
      beginsWith_false_of_head_ne _ "/" '.' '/' _ [] hdotdata rfl (by decide)
    have hddot : beginsWith ("./" ++ p) "./" = true :=
      beginsWith_append_self "./" p
    have hres : resolvePath env.cwd ("./" ++ p) = env.cwd ++ "/" ++ p := by
      rw [resolvePath, if_neg (by simp [hdslash]), if_pos hddot,
        dropChars_two_append]
    simp [loadCore, hdnet, fileLoad, stripFileScheme_of_not_file _ hdfile,
      hres, hcabs]
  · have hfdata : ("file://" ++ (env.cwd ++ "/" ++ p)).data =
        'f' :: ("ile://".data ++ (env.cwd ++ "/" ++ p).data) := by
      rw [String.data_append]; rfl
    have hfnet : isNetworkUrl ("file://" ++ (env.cwd ++ "/" ++ p)) = false :=
      isNetworkUrl_false_of_head _ 'f' _ hfdata (by decide)
    rw [habs]
    simp [loadCore, hfnet, fileLoad, stripFileScheme_append, habsres, hcabs]

/-- Witness for C2: the four forms of the path of test/browser/project.json
under the working directory /home/user all resolve with the same content. -/
theorem equivalent_path_forms_same_content_witness :
    loadCore envC (resolvePath envC.cwd "test/browser/project.json") {} =
      some (Except.ok projectJsonText) ∧
    loadCore envC "test/browser/project.json" {} =
      some (Except.ok projectJsonText) ∧
    loadCore envC ("./" ++ "test/browser/project.json") {} =
      some (Except.ok projectJsonText) ∧
    loadCore envC ("file://" ++ resolvePath envC.cwd "test/browser/project.json") {} =
      some (Except.ok projectJsonText) :=
  equivalent_path_forms_same_content envC "test/browser/project.json"
    projectJsonText "home/user".data (by decide) (by decide) (by decide)
    (by decide) (by decide) (by decide)

/-- C8: against a server that answers 401 to credential-less requests at the
given URL and succeeds with the content when the expected Basic auth
credentials are present, a plain load fails with status 401 and the same load
with a prepareRequest hook that sets those credentials on the outgoing
request resolves with the content. -/
theorem prepare_request_auth (env : Env) (url u p content : String)
    (hnet : isNetworkUrl url = true)
    (h401 : ∀ req, req.url = url → req.auth = none →
      (env.server req).status = 401)
    (h200 : ∀ req, req.url = url → req.auth = some (u, p) →
      env.server req = ⟨200, content⟩) :
    (∃ e, loadCore env url {} = some (Except.error e) ∧
      e.status = some 401) ∧
    loadCore env url
        { prepareRequest :=
            some fun r => Except.ok { r with auth := some (u, p) } } =
      some (Except.ok content) := by
  constructor
  · exact ⟨⟨"Request failed with status code " ++ toString 401, some 401⟩,
      loadCore_http_failure env url 401 hnet
        (h401 (mkRequest url {}) rfl rfl) (by decide), rfl⟩
  · have h2 := h200 ⟨"GET", url, some (u, p)⟩ rfl rfl
    simp [loadCore, hnet, httpLoad, mkRequest, h2,
      (by decide : isSuccessStatus 200 = true)]

/-- Witness for C8: the secured copy of project.json behind Basic auth in the
concrete environment. -/
theorem prepare_request_auth_witness :
    (∃ e, loadCore envC "http://localhost:55555/secure/project.json" {} =
        some (Except.error e) ∧ e.status = some 401) ∧
    loadCore envC "http://localhost:55555/secure/project.json"
        { prepareRequest := some fun r =>
            Except.ok { r with auth := some ("whitlockjc", "path-loader") } } =
      some (Except.ok projectJsonText) :=
  prepare_request_auth envC "http://localhost:55555/secure/project.json"
    "whitlockjc" "path-loader" projectJsonText (by decide)
    (by intro req hu ha; simp [envC, hu, ha])
    (by intro req hu ha; simp [envC, hu, ha])

/-- A processContent hook mirroring the repository test: it invokes the
completion callback with the response body as its first and only argument. -/
def contentFirstHook : HttpResponse → PCOutcome := fun res =>
  PCOutcome.pcCall res.text none

/-- Options carrying only the content-first processContent hook. -/
def optsContentFirst : LoadOptions := { processContent := some contentFirstHook }

/-- Counterexample for C6: a hook that invokes its completion callback with a
single (non-empty) first argument.  The loader consumes that first argument
as the processed content and resolves with it, while the error-first
(error, content) reading the claim states would reject the load with that
value as the error: the promise does not settle according to an
(error, content) reading of the callback. -/
theorem process_content_error_first_counterexample :
    (httpLoad envC.server "http://localhost:55555/project.json"
        optsContentFirst).outcome = some (Except.ok projectJsonText) ∧
    (httpLoadErrorFirst envC.server "http://localhost:55555/project.json"
        optsContentFirst).outcome =
      some (Except.error ⟨projectJsonText, none⟩) ∧
    (httpLoad envC.server "http://localhost:55555/project.json"
        optsContentFirst).outcome ≠
      (httpLoadErrorFirst envC.server "http://localhost:55555/project.json"
        optsContentFirst).outcome := by
  decide

/-- C6 as amended: on a successful HTTP response the loader invokes
processContent with the raw response and a completion callback, and the load
settles according to what that callback receives with the first argument
consumed as the processed content: the promise resolves with the first
callback argument, and a synchronous throw in the hook rejects the load with
that error. -/
theorem process_content_settles_load (env : Env) (url : String)
    (opts : LoadOptions) (h : HttpResponse → PCOutcome)
    (hnet : isNetworkUrl url = true)
    (hp : opts.prepareRequest = none)
    (hpc : opts.processContent = some h)
    (hs : isSuccessStatus (env.server (mkRequest url opts)).status = true) :
    (∀ v a, h (env.server (mkRequest url opts)) = PCOutcome.pcCall v a →
      loadCore env url opts = some (Except.ok v)) ∧
    (∀ m, h (env.server (mkRequest url opts)) = PCOutcome.pcThrow m →
      loadCore env url opts = some (Except.error ⟨m, none⟩)) := by
  constructor
  · intro v a hcall
    simp [loadCore, hnet, httpLoad, hp, hpc, hs, hcall]
  · intro m hcall
    simp [loadCore, hnet, httpLoad, hp, hpc, hs, hcall]

/-- Witness for C6 as amended: the content-first hook on the served
project.json resolves the load with the body it passed to the callback. -/
theorem process_content_settles_load_witness :
    loadCore envC "http://localhost:55555/project.json" optsContentFirst =
      some (Except.ok projectJsonText) :=
  (process_content_settles_load envC "http://localhost:55555/project.json"
      optsContentFirst contentFirstHook (by decide) rfl rfl (by decide)).1
    projectJsonText none (by decide)

/-- C10: when processContent invokes its completion callback passing the
processed content as the first and only argument, the load resolves with
exactly that value. -/
theorem process_content_first_arg_resolves (env : Env) (url : String)
    (opts : LoadOptions) (h : HttpResponse → PCOutcome) (v : String)
    (hnet : isNetworkUrl url = true)
    (hp : opts.prepareRequest = none)
    (hpc : opts.processContent = some h)
    (hs : isSuccessStatus (env.server (mkRequest url opts)).status = true)
    (hcall : h (env.server (mkRequest url opts)) = PCOutcome.pcCall v none) :
    loadCore env url opts = some (Except.ok v) := by
  simp [loadCore, hnet, httpLoad, hp, hpc, hs, hcall]

/-- Witness for C10: a hook passing a fixed parsed value as the sole callback
argument resolves the load with that value. -/
theorem process_content_first_arg_resolves_witness :
    loadCore envC "http://localhost:55555/project.json"
        { processContent := some fun _ => PCOutcome.pcCall "parsed" none } =
      some (Except.ok "parsed") :=
  process_content_first_arg_resolves envC
    "http://localhost:55555/project.json"
    { processContent := some fun _ => PCOutcome.pcCall "parsed" none }
    (fun _ => PCOutcome.pcCall "parsed" none) "parsed"
    (by decide) rfl rfl (by decide) (by decide)

/-- C7: an exception thrown synchronously inside a caller-supplied hook fails
the load with exactly that error, preserving its message, and no result is
produced; when prepareRequest throws, no request is sent. -/
theorem hook_throw_propagates (env : Env) (url : String) (opts : LoadOptions)
    (m : String) (hnet : isNetworkUrl url = true) :
    (∀ hk, opts.prepareRequest = some hk →
      hk (mkRequest url opts) = Except.error m →
      loadCore env url opts = some (Except.error ⟨m, none⟩) ∧
      (httpLoad env.server url opts).requestSent = false) ∧
    (∀ hk, opts.prepareRequest = none → opts.processContent = some hk →
      isSuccessStatus (env.server (mkRequest url opts)).status = true →
      hk (env.server (mkRequest url opts)) = PCOutcome.pcThrow m →
      loadCore env url opts = some (Except.error ⟨m, none⟩)) := by
  constructor
  · intro hk hpr hthrow
    constructor
    · simp [loadCore, hnet, httpLoad, hpr, hthrow]
    · simp [httpLoad, hpr, hthrow]
  · intro hk hpr hpc hs hthrow
    simp [loadCore, hnet, httpLoad, hpr, hpc, hs, hthrow]

/-- A prepareRequest hook that throws synchronously. -/
def throwingPrepare : HttpRequest → Except String HttpRequest := fun _ =>
  Except.error "Thrown error"

/-- A processContent hook that throws synchronously. -/
def throwingProcess : HttpResponse → PCOutcome := fun _ =>
  PCOutcome.pcThrow "Thrown error"

/-- Witness for C7: both throwing hooks fail the load with the thrown
message, and the throwing prepareRequest sends no request. -/
theorem hook_throw_propagates_witness :
    (loadCore envC "http://localhost:55555/project.json"
        { prepareRequest := some throwingPrepare } =
      some (Except.error ⟨"Thrown error", none⟩) ∧
    (httpLoad envC.server "http://localhost:55555/project.json"
        { prepareRequest := some throwingPrepare }).requestSent = false) ∧
    loadCore envC "http://localhost:55555/project.json"
        { processContent := some throwingProcess } =
      some (Except.error ⟨"Thrown error", none⟩) :=
  ⟨(hook_throw_propagates envC "http://localhost:55555/project.json"
      { prepareRequest := some throwingPrepare } "Thrown error"
      (by decide)).1 throwingPrepare rfl rfl,
   (hook_throw_propagates envC "http://localhost:55555/project.json"
      { processContent := some throwingProcess } "Thrown error"
      (by decide)).2 throwingProcess rfl rfl (by decide) rfl⟩

/-- Counterexample for C1: a processContent hook that never invokes its
completion callback leaves the load with no outcome at all: the promise
neither resolves nor rejects, so it is not the case that exactly one of a
result or an error is produced for every invocation. -/
theorem silent_hook_no_outcome_counterexample :
    loadCore envC "http://localhost:55555/project.json" optsSilent = none := by
  decide

/-- C1 as amended: at most one of a result or an error is produced per load
invocation (the outcome type admits no more), and exactly one is produced
whenever every supplied processContent hook always signals completion by
invoking its callback or throwing; only a hook that never signals leaves the
operation pending with no outcome. -/
theorem one_outcome_when_hooks_complete (env : Env) (target : String)
    (opts : LoadOptions)
    (hcomplete : ∀ hk res, opts.processContent = some hk →
      hk res ≠ PCOutcome.pcSilent) :
    (loadCore env target opts).isSome = true := by
  rw [loadCore]
  by_cases hn : isNetworkUrl target = true
  · rw [if_pos hn, httpLoad]
    cases hpr : opts.prepareRequest with
    | none =>
        by_cases hs : isSuccessStatus (env.server (mkRequest target opts)).status = true
        · cases hpc : opts.processContent with
          | none => simp [hs]
          | some hk =>
              cases hcall : hk (env.server (mkRequest target opts)) with
              | pcCall v a => simp [hs, hcall]
              | pcThrow m => simp [hs, hcall]
              | pcSilent => exact absurd hcall (hcomplete hk _ hpc)
        · simp [hs]
    | some hk0 =>
        cases hprep : hk0 (mkRequest target opts) with
        | error m => simp [hprep]
        | ok req2 =>
            by_cases hs : isSuccessStatus (env.server req2).status = true
            · cases hpc : opts.processContent with
              | none => simp [hprep, hs]
              | some hk =>
                  cases hcall : hk (env.server req2) with
                  | pcCall v a => simp [hprep, hs, hcall]
                  | pcThrow m => simp [hprep, hs, hcall]
                  | pcSilent => exact absurd hcall (hcomplete hk _ hpc)
            · simp [hprep, hs]
  · rw [if_neg hn, fileLoad]
    cases env.fs (resolvePath env.cwd (stripFileScheme target)) <;> rfl

/-- Witness for C1 as amended: a load without hooks settles. -/
theorem one_outcome_when_hooks_complete_witness :
    (loadCore envC "/home/user/test/browser/project.json" {}).isSome = true :=
  one_outcome_when_hooks_complete envC "/home/user/test/browser/project.json"
    {} (fun _ _ hc => Option.noConfusion hc)

/-- Counterexample for C3: with a processContent hook that never invokes its
completion callback, a load with a supplied callback never settles and the
callback is invoked zero times, not exactly once. -/
theorem callback_zero_invocations_counterexample :
    callbackSupplied (Arg2.withOptions optsSilent) true = true ∧
    (load envC "http://localhost:55555/project.json"
      (Arg2.withOptions optsSilent) true).2 = [] := by
  decide

/-- C3 as amended: load always yields the promise outcome of the core
operation; a function as the second argument is treated as the callback with
options defaulting to empty; and a supplied callback is invoked exactly once
with (error, result) in error-first convention, carrying the same outcome as
the promise, whenever the promise settles (it is never invoked when the
operation never settles, and never invoked when no callback is supplied). -/
theorem load_promise_and_callback (env : Env) (target : String)
    (arg2 : Arg2) (d : Bool) :
    (load env target Arg2.withCallback d =
      load env target (Arg2.withOptions {}) true) ∧
    ((load env target arg2 d).1 = loadCore env target (optionsOf arg2)) ∧
    (callbackSupplied arg2 d = true →
      (∀ s, (load env target arg2 d).1 = some (Except.ok s) →
        (load env target arg2 d).2 = [(none, some s)]) ∧
      (∀ e, (load env target arg2 d).1 = some (Except.error e) →
        (load env target arg2 d).2 = [(some e, none)])) ∧
    (callbackSupplied arg2 d = false → (load env target arg2 d).2 = []) := by
  refine ⟨rfl, rfl, ?_, ?_⟩
  · intro hsup
    constructor
    · intro s hx
      simp only [load] at hx ⊢
      rw [hx, callbackCalls, if_pos hsup]
    · intro e hx
      simp only [load] at hx ⊢
      rw [hx, callbackCalls, if_pos hsup]
  · intro hsup
    simp only [load, callbackCalls]
    rw [if_neg (by simp [hsup])]

/-- Witness for C3 as amended: a file load with a callback supplied via the
second argument invokes the callback once with the loaded content. -/
theorem load_promise_and_callback_witness :
    (load envC "/home/user/test/browser/project.json"
      (Arg2.withOptions {}) true).2 = [(none, some projectJsonText)] :=
  ((load_promise_and_callback envC "/home/user/test/browser/project.json"
      (Arg2.withOptions {}) true).2.2.1 (by decide)).1 projectJsonText
    (by decide)

end PathLoader
